import Mathlib

/-
Verification development for the pyrepl server (src/bin/server.py).

The program is a single-file HTTP server exposing a persistent IPython
session.  We give a shallow embedding of its pure core and of the state
transitions of its handlers:

  * text is modelled as List Char (Python str is a sequence of characters);
  * decoded JSON request bodies are a Json inductive; a body that fails
    json.loads is modelled as none;
  * the process-wide mutable globals (ipshell, is_executing, log_file_path,
    and the log file contents) form a ServerState record;
  * each handler is a function from state (and request data) to a new state
    plus a trace of observable events (responses, console echoes, engine
    invocations, flag transitions, log appends); mutex-protected sections of
    the source are modelled as single atomic steps of these functions;
  * the IPython engine is an external collaborator: run_cell outcomes are a
    parameter (EngineResult / WorkerBehavior) and the session is modelled
    abstractly as the list of code units executed into it since the last
    reset, so that a freshly reset session carries no bindings.
-/

/-- Decoded JSON values, the possible results of json.loads on a request
body.  Object fields are an association list (keys unique, as produced by
the Python json parser). -/
inductive Json where
  | null : Json
  | bool (b : Bool) : Json
  | num (n : Int) : Json
  | str (s : List Char) : Json
  | arr (xs : List Json) : Json
  | obj (fields : List (List Char × Json)) : Json

/-- Association-list lookup, modelling Python dict .get with a default of
none. -/
def jsonGet : List (List Char × Json) → List Char → Option Json
  | [], _ => none
  | (k, v) :: rest, key => if k = key then some v else jsonGet rest key

/-- Head of every validation error message: the source formats errors as
the text Failed to parse request: followed by the exception text. -/
def parseFailHead : List Char := ("Failed to parse request: ").data

/-- Exception text of the ValueError raised when the code field is not a
list.  The source message wraps the word code in apostrophes
(codepoint 39). -/
def codeNotListDetail : List Char :=
  [Char.ofNat 39] ++ ("code").data ++ [Char.ofNat 39] ++
    (" must be a list of strings").data

/-- Representative exception text when json.loads fails; the exact Python
rendering depends on the input, which no claim depends on (only that the
detail is non-empty). -/
def jsonDecodeDetail : List Char := ("Expecting value").data

/-- Representative exception text of the AttributeError raised by
raw_data.get when the decoded body is not an object; the exact Python
rendering depends on the input type, which no claim depends on. -/
def noAttrGetDetail : List Char := ("object has no attribute get").data

/-- Embedding of validate_code_exc_data (src/bin/server.py lines 37-45).
The source parses the body, fetches the code field with default [], and
raises ValueError only when that value is not a list; every exception is
caught and turned into an error string.  Note that the elements of the
list are NOT checked to be strings, and a missing code field silently
defaults to the empty list. -/
def validate_code_exc_data (body : Option Json) : List Json × Option (List Char) :=
  match body with
  | none => ([], some (parseFailHead ++ jsonDecodeDetail))
  | some (Json.obj fields) =>
      match (jsonGet fields (("code").data)).getD (Json.arr []) with
      | Json.arr xs => (xs, none)
      | _ => ([], some (parseFailHead ++ codeNotListDetail))
  | some _ => ([], some (parseFailHead ++ noAttrGetDetail))

/-
ANSI sanitizer.  The source compiles the pattern
  ESC, then either one character of the class at codepoints 64-90 and
  92-95, or an open bracket followed by parameter bytes (48-63, repeated),
  intermediate bytes (32-47, repeated) and one final byte (64-126),
and substitutes every non-overlapping leftmost match with the empty
string.  The character classes of the CSI alternative are pairwise
disjoint, so the greedy match is deterministic and the whole scan is the
left-to-right scanner below.  A fuel argument (the input length bounds the
number of scan steps) keeps the recursion structural so that concrete
inputs evaluate inside the kernel.
-/

/-- Escape character, codepoint 27. -/
def escChar : Char := Char.ofNat 27

/-- Second byte of a two-character escape sequence: codepoints 64-90 and
92-95 (the open bracket 91 is excluded and handled by the CSI
alternative). -/
def isSingleEscFinal (c : Char) : Bool :=
  decide ((64 ≤ c.toNat ∧ c.toNat ≤ 90) ∨ (92 ≤ c.toNat ∧ c.toNat ≤ 95))

/-- CSI parameter byte, codepoints 48-63. -/
def isParamByte (c : Char) : Bool := decide (48 ≤ c.toNat ∧ c.toNat ≤ 63)

/-- CSI intermediate byte, codepoints 32-47. -/
def isInterByte (c : Char) : Bool := decide (32 ≤ c.toNat ∧ c.toNat ≤ 47)

/-- CSI final byte, codepoints 64-126. -/
def isFinalByte (c : Char) : Bool := decide (64 ≤ c.toNat ∧ c.toNat ≤ 126)

/-- Match the CSI tail (after ESC [): parameter bytes, then intermediate
bytes, then one final byte; returns the remainder after the match. -/
def matchCsi (l : List Char) : Option (List Char) :=
  match (l.dropWhile isParamByte).dropWhile isInterByte with
  | c :: rest => if isFinalByte c then some rest else none
  | [] => none

/-- Match the part of an escape sequence after the ESC character; returns
the remainder after the match. -/
def matchTail (l : List Char) : Option (List Char) :=
  match l with
  | [] => none
  | c :: rest =>
      if isSingleEscFinal c then some rest
      else if c = Char.ofNat 91 then matchCsi rest
      else none

/-- One fuel-bounded scan: at each position, if an escape sequence matches
it is deleted and the scan resumes after it, otherwise the character is
kept.  The fuel only needs to be at least the length of the list. -/
def stripRun : Nat → List Char → List Char
  | _, [] => []
  | 0, l => l
  | fuel + 1, c :: rest =>
      if c = escChar then
        match matchTail rest with
        | some rem => stripRun fuel rem
        | none => c :: stripRun fuel rest
      else c :: stripRun fuel rest

/-- Embedding of strip_ansi_codes (src/bin/server.py lines 27-29):
ansi_regex.sub applied to the text (the falsy-text early return also
yields the empty string on empty input). -/
def strip_ansi_codes (s : List Char) : List Char := stripRun s.length s

/-- True when some position of the text begins an escape-sequence match,
i.e. when the source regex has at least one match in the text. -/
def hasMatch : List Char → Bool
  | [] => false
  | c :: rest => (decide (c = escChar) && (matchTail rest).isSome) || hasMatch rest

/-
Code normalization.  The accepted handler builds the executable unit as
textwrap.dedent of the newline-join of the submitted lines.  We embed the
CPython textwrap.dedent algorithm: lines consisting solely of blanks and
tabs are first replaced by empty lines; the margin is then folded over the
leading whitespace of the lines that contain a non-whitespace character
(exactly the matches of the multiline pattern (^[ \t]*)(?:[^ \t\n]));
finally the margin is removed from the start of every line on which it
occurs.
-/

/-- Indentation character for dedent purposes: blank or tab. -/
def isIndentChar (c : Char) : Bool := decide (c = ' ' ∨ c = Char.ofNat 9)

/-- Split a text on newline characters, Python str.split semantics: the
empty text yields one empty line, a trailing newline yields a final empty
line. -/
def splitNl : List Char → List (List Char)
  | [] => [[]]
  | c :: rest =>
      if c = Char.ofNat 10 then [] :: splitNl rest
      else
        match splitNl rest with
        | l :: ls => (c :: l) :: ls
        | [] => [[c]]

/-- Join lines with newline characters, inverse of splitNl. -/
def joinNl : List (List Char) → List Char
  | [] => []
  | [l] => l
  | l :: ls => l ++ Char.ofNat 10 :: joinNl ls

/-- A line that the whitespace-only pattern ^[ \t]+$ matches: non-empty
and made only of blanks and tabs. -/
def wsOnlyLine (l : List Char) : Bool := decide (l ≠ []) && l.all isIndentChar

/-- First dedent pass: whitespace-only lines are replaced by empty lines. -/
def blankWsOnly (l : List Char) : List Char := if wsOnlyLine l then [] else l

/-- A line containing at least one non-whitespace character (inside a line
no newline can occur, so the class [^ \t\n] is just non-indentation). -/
def hasContent (l : List Char) : Bool := l.any (fun c => !(isIndentChar c))

/-- Leading whitespace of a line. -/
def leadingWs (l : List Char) : List Char := l.takeWhile isIndentChar

/-- Leading whitespace of every line that has non-whitespace content: the
findall of the leading-whitespace pattern. -/
def indentsOf (ls : List (List Char)) : List (List Char) :=
  (ls.filter hasContent).map leadingWs

/-- Longest common starting segment of two lists. -/
def lcp : List Char → List Char → List Char
  | x :: xs, y :: ys => if x = y then x :: lcp xs ys else []
  | _, _ => []

/-- Boolean starts-with test on character lists. -/
def isPref : List Char → List Char → Bool
  | [], _ => true
  | _ :: _, [] => false
  | x :: xs, y :: ys => decide (x = y) && isPref xs ys

/-- One step of the CPython margin loop: keep the margin when it is a
prefix of the next indent, shrink it to the next indent when that is a
prefix of it, and otherwise cut it at the first mismatching character. -/
def marginStep (m : Option (List Char)) (ind : List Char) : Option (List Char) :=
  match m with
  | none => some ind
  | some mv =>
      if isPref mv ind then some mv
      else if isPref ind mv then some ind
      else some (lcp mv ind)

/-- The margin computed by the CPython dedent loop over the collected
indents (an absent margin acts as the empty margin, since the final
substitution is skipped when the margin is falsy). -/
def pyMargin (inds : List (List Char)) : List Char :=
  (inds.foldl marginStep none).getD []

/-- Remove the margin from the start of a line when it occurs there: one
line of the multiline substitution of ^margin by the empty string. -/
def stripMarginLine (m l : List Char) : List Char :=
  if isPref m l then l.drop m.length else l

/-- Embedding of textwrap.dedent as called by the handler: blank the
whitespace-only lines, compute the margin of the remaining lines with the
CPython loop, and strip it from every line. -/
def textwrap_dedent (t : List Char) : List Char :=
  let ls := (splitNl t).map blankWsOnly
  let m := pyMargin (indentsOf ls)
  joinNl (ls.map (stripMarginLine m))

/-- The executable unit built by the handler (src/bin/server.py line 182):
textwrap.dedent of the newline-join of the submitted code lines. -/
def dedentUnit (lines : List (List Char)) : List Char :=
  textwrap_dedent (joinNl lines)

/-- Margin as literally described by the specification: the longest common
leading whitespace, folded over the indents with the longest-common-prefix
operation. -/
def lcpAll : List (List Char) → List Char
  | [] => []
  | i :: rest => rest.foldl lcp i

/-- De-indentation as literally worded by the claim: the lines joined with
newlines with the longest common leading whitespace (of the lines that
have non-whitespace content) removed; whitespace-only lines are left
alone apart from that removal. -/
def specDeindent (t : List Char) : List Char :=
  let ls := splitNl t
  let m := lcpAll (indentsOf ls)
  joinNl (ls.map (stripMarginLine m))

/-- De-indentation as amended to match the source: identical to the
claimed wording except that whitespace-only lines are first normalized to
empty lines, as textwrap.dedent does. -/
def amendedDeindent (t : List Char) : List Char :=
  let ls := (splitNl t).map blankWsOnly
  let m := lcpAll (indentsOf ls)
  joinNl (ls.map (stripMarginLine m))

/-
Server state, events and the transcript.
-/

/-- The persistent IPython session, modelled abstractly as the list of
code units executed into it since it was created or last reset: a freshly
created or freshly reset session is the empty list and carries no
bindings. -/
abbrev Session := List (List Char)

/-- A result dictionary handed to write_to_log: the captured output text
and the error text. -/
structure ExecOutcome where
  output : List Char
  error : List Char
deriving DecidableEq

/-- One appended transcript record: the verbatim code lines of the fenced
block and the sanitized, trimmed output text of the output block. -/
structure LogRecord where
  code : List (List Char)
  content : List Char
deriving DecidableEq

/-- One block of the log file: the per-process header written by
setup_logging, or an appended record. -/
inductive LogEntry where
  | header (time : List Char) (cwd : List Char) (name : Option (List Char))
  | record (r : LogRecord)
deriving DecidableEq

/-- A JSON response body: the source only ever sends objects with a single
status or error field. -/
inductive RespBody where
  | statusMsg (s : List Char)
  | errorMsg (s : List Char)
deriving DecidableEq

/-- Observable events of a handler or worker run, in program order:
responses on the wire, busy-flag transitions, console echoes, engine
invocations, session resets and transcript appends. -/
inductive Event where
  | respond (status : Nat) (body : RespBody)
  | setFlag
  | clearFlag
  | echoCode (lines : List (List Char))
  | runCell (unit : List Char)
  | echoStdout (s : List Char)
  | echoStderr (s : List Char)
  | consoleNote (s : List Char)
  | resetSession
  | logAppend (r : LogRecord)
deriving DecidableEq

/-- True exactly on transcript-append events. -/
def isLogAppendB : Event → Bool
  | Event.logAppend _ => true
  | _ => false

/-- The process-wide mutable globals of the server: the session handle
(none before initialization), the busy flag, the log file path (none when
logging is disabled) and the contents of the log file. -/
structure ServerState where
  ipshell : Option Session
  is_executing : Bool
  log_file_path : Option (List Char)
  log_file : List LogEntry

/-- Whitespace for Python str.strip purposes (the ASCII fragment: blank,
tab, newline, carriage return, vertical tab, form feed). -/
def isPyWsChar (c : Char) : Bool :=
  decide (c = ' ' ∨ c = Char.ofNat 9 ∨ c = Char.ofNat 10 ∨ c = Char.ofNat 13 ∨
    c = Char.ofNat 11 ∨ c = Char.ofNat 12)

/-- Python str.strip: drop whitespace from both ends. -/
def pyStrip (l : List Char) : List Char :=
  ((l.dropWhile isPyWsChar).reverse.dropWhile isPyWsChar).reverse

/-- The output-block text computed by write_to_log: both streams are
sanitized, concatenated with a separating newline only when both are
non-empty, and the result is stripped. -/
def logContent (res : ExecOutcome) : List Char :=
  let o := strip_ansi_codes res.output
  let e := strip_ansi_codes res.error
  pyStrip (o ++ (if o ≠ [] ∧ e ≠ [] then [Char.ofNat 10] else []) ++ e)

/-- The record appended for one (code, result) pair. -/
def mkLogRecord (lines : List (List Char)) (res : ExecOutcome) : LogRecord :=
  { code := lines, content := logContent res }

/-- Embedding of write_to_log (src/bin/server.py lines 48-78): a no-op
when no log file path is configured, otherwise an append of one record.
A failing file write is caught in the source and only echoed to the
console; the embedding models the successful write. -/
def write_to_log (st : ServerState) (lines : List (List Char)) (res : ExecOutcome) :
    ServerState × List Event :=
  match st.log_file_path with
  | none => (st, [])
  | some _ =>
      let r := mkLogRecord lines res
      ({ st with log_file := st.log_file ++ [LogEntry.record r] }, [Event.logAppend r])

/-
The background worker.
-/

/-- Outcome of a run_cell invocation that returns: the captured streams
and the two failure fields of the IPython ExecutionResult.  The engine is
an external collaborator, so these are parameters of the model; the
error fields carry the text that the source would render from them
(str of error_before_exec, and the joined traceback.format_exception
rendering of error_in_exec). -/
structure EngineResult where
  stdout : List Char
  stderr : List Char
  errorBeforeExec : Option (List Char)
  errorInExec : Option (List Char)

/-- Behavior of one worker run, covering every exit path of the try block
of the source: run_cell returns normally; run_cell itself raises (the
captured streams are then lost, output is still None); or an exception is
raised inside the worker after the streams were captured (modelled at the
representative point just after the capture, with tb the
traceback.format_exc rendering). -/
inductive WorkerBehavior where
  | normal (r : EngineResult)
  | runRaises (tb : List Char)
  | lateRaises (r : EngineResult) (tb : List Char)

/-- Result classification of the worker (src/bin/server.py lines 102-122):
a pre-execution failure appends its message to the captured stderr; an
in-execution failure synthesizes the traceback rendering as the error
text exactly when both captured streams are empty (Python falsy), and
otherwise leaves the captured streams untouched. -/
def classify (r : EngineResult) : ExecOutcome :=
  let errOut :=
    match r.errorBeforeExec with
    | some msg => r.stderr ++ ("Error before execution: ").data ++ msg
    | none =>
        match r.errorInExec with
        | some tb => if r.stdout = [] ∧ r.stderr = [] then tb else r.stderr
        | none => r.stderr
  { output := r.stdout, error := errOut }

/-- Console echoes of the normal path (src/bin/server.py lines 116-120):
stdout is written when non-empty, then the error text is printed when
non-empty. -/
def echoEvents (out err : List Char) : List Event :=
  (if out = [] then [] else [Event.echoStdout out]) ++
    (if err = [] then [] else [Event.echoStderr err])

/-- Structure of the worker output: the state after the finally block and
the log write, and the worker's event trace. -/
structure WorkerOut where
  state : ServerState
  trace : List Event

/-- The unconditional tail of the worker (src/bin/server.py lines 132-135):
the finally block clears the busy flag under the mutex (one atomic step),
and only then is write_to_log attempted. -/
def workerFinish (st : ServerState) (lines : List (List Char)) (sess : Option Session)
    (res : ExecOutcome) (tryEvents : List Event) : WorkerOut :=
  let st1 := { st with is_executing := false, ipshell := sess }
  let lw := write_to_log st1 lines res
  { state := lw.1, trace := (Event.echoCode lines :: tryEvents) ++ (Event.clearFlag :: lw.2) }

/-- Embedding of run_code_in_background (src/bin/server.py lines 81-135,
named with a leading underscore in the source): echo the submitted code,
run the unit, classify and echo the outcome - or catch any exception,
preserving the captured stdout when the capture had completed - then
unconditionally clear the flag and append to the transcript.  A session
that executed the unit accumulates it; when run_cell itself raises, the
session is left as the engine left it (modelled unchanged). -/
def run_code_in_background (st : ServerState) (lines : List (List Char))
    (unit : List Char) (b : WorkerBehavior) : WorkerOut :=
  match b with
  | WorkerBehavior.normal r =>
      let res := classify r
      workerFinish st lines (st.ipshell.map (fun s => s ++ [unit])) res
        (Event.runCell unit :: echoEvents res.output res.error)
  | WorkerBehavior.runRaises tb =>
      workerFinish st lines st.ipshell { output := [], error := tb }
        [Event.runCell unit, Event.echoStderr tb]
  | WorkerBehavior.lateRaises r tb =>
      workerFinish st lines (st.ipshell.map (fun s => s ++ [unit]))
        { output := r.stdout, error := tb }
        (Event.runCell unit ::
          ((if r.stdout = [] then [] else [Event.echoStdout r.stdout]) ++
            [Event.echoStderr tb]))

/-
The request handlers.
-/

/-- Response message of an accepted execution request. -/
def msgAccepted : List Char := ("Execution request accepted").data

/-- Error message of the admission conflict response. -/
def busyMsg : List Char := ("Server is busy executing previous code").data

/-- Error message of the uninitialized-session response. -/
def notInitMsg : List Char := ("IPython shell not initialized").data

/-- Status message of a successful reset. -/
def okMsg : List Char := ("ok").data

/-- Extraction of the string elements of the validated code value: the
newline join in the handler raises TypeError exactly when some element is
not a string, so the join succeeds precisely on the some case. -/
def asStrings : List Json → Option (List (List Char))
  | [] => some []
  | Json.str s :: rest =>
      match asStrings rest with
      | some ls => some (s :: ls)
      | none => none
  | _ => none

/-- Result of one execute_code handler invocation: the state it leaves,
its event trace, the worker arguments when a background thread was
spawned, and whether the handler itself raised an unhandled exception
(which http.server swallows, so no further code of the handler runs). -/
structure HandlerOut where
  state : ServerState
  trace : List Event
  spawned : Option (List (List Char) × List Char)
  crashed : Bool

/-- Embedding of CodeExecutionHandler.execute_code (src/bin/server.py
lines 158-186): reply 500 when the session is uninitialized, before the
body is read; validate the body and reply 400 on failure; under the mutex
(one atomic step) test the busy flag, replying 409 and changing nothing
when it is set, and setting it otherwise; reply 200; then join and dedent
the code lines - a join of a list with a non-string element raises an
unhandled TypeError here, after the flag was set, so no worker is spawned
and the flag stays set - and finally spawn the background worker. -/
def execute_code (st : ServerState) (body : Option Json) : HandlerOut :=
  match st.ipshell with
  | none =>
      { state := st, trace := [Event.respond 500 (RespBody.errorMsg notInitMsg)],
        spawned := none, crashed := false }
  | some _ =>
      match validate_code_exc_data body with
      | (_, some err) =>
          { state := st, trace := [Event.respond 400 (RespBody.errorMsg err)],
            spawned := none, crashed := false }
      | (code, none) =>
          if st.is_executing then
            { state := st, trace := [Event.respond 409 (RespBody.errorMsg busyMsg)],
              spawned := none, crashed := false }
          else
            let st1 := { st with is_executing := true }
            match asStrings code with
            | none =>
                { state := st1,
                  trace := [Event.setFlag, Event.respond 200 (RespBody.statusMsg msgAccepted)],
                  spawned := none, crashed := true }
            | some lines =>
                { state := st1,
                  trace := [Event.setFlag, Event.respond 200 (RespBody.statusMsg msgAccepted)],
                  spawned := some (lines, dedentUnit lines), crashed := false }

/-- Full processing of one execute request: the handler, followed by the
background worker when one was spawned.  The worker runs on a detached
thread; every event of it is issued after the handler sent its response,
so the sequential composition of the two traces is the program-order
linearization of one request's events. -/
def processExecute (st : ServerState) (body : Option Json) (b : WorkerBehavior) :
    ServerState × List Event :=
  let h := execute_code st body
  match h.spawned with
  | none => (h.state, h.trace)
  | some (lines, unit) =>
      let w := run_code_in_background h.state lines unit b
      (w.state, h.trace ++ w.trace)

/-- Console message printed by a reset. -/
def resetMsg : List Char := ("Cleared REPL scope (IPython reset)").data

/-- Synthetic code line of the reset transcript record. -/
def resetCmdLine : List Char := ("# Reset Command Received").data

/-- The synthetic transcript record written by a reset. -/
def resetRecord : LogRecord := mkLogRecord [resetCmdLine] { output := resetMsg, error := [] }

/-- Embedding of CodeExecutionHandler.reset_scope (src/bin/server.py
lines 188-199): reply 500 when the session is uninitialized; otherwise
discard and recreate the session (ipshell.reset with new_session true
leaves a context with no bindings), print a console note, clear the busy
flag under the mutex unconditionally, reply 200, and append the synthetic
record to the transcript. -/
def reset_scope (st : ServerState) : ServerState × List Event :=
  match st.ipshell with
  | some _ =>
      let st1 := { st with ipshell := some [], is_executing := false }
      let lw := write_to_log st1 [resetCmdLine] { output := resetMsg, error := [] }
      (lw.1,
        [Event.resetSession, Event.consoleNote resetMsg,
          Event.respond 200 (RespBody.statusMsg okMsg)] ++ lw.2)
  | none => (st, [Event.respond 500 (RespBody.errorMsg notInitMsg)])

/-
Logging setup.
-/

/-- A character kept verbatim by the log-name sanitizer: a word character
(modelled on the ASCII fragment: letters, digits, underscore) or a
hyphen. -/
def isNameKeep (c : Char) : Bool := c.isAlphanum || decide (c = '_' ∨ c = '-')

/-- Scanner of the sanitizer substitution: every maximal run of
non-kept characters collapses to a single underscore.  The flag records
whether the previous character was part of such a run. -/
def sanitizeGo : Bool → List Char → List Char
  | _, [] => []
  | inRun, c :: rest =>
      if isNameKeep c then c :: sanitizeGo false rest
      else if inRun then sanitizeGo true rest
      else '_' :: sanitizeGo true rest

/-- The log-name sanitizer of setup_logging: the substitution of every
run of characters outside word characters and hyphens by one
underscore. -/
def sanitize_log_name (s : List Char) : List Char := sanitizeGo false s

/-- Startup inputs of setup_logging: the two command-line flags, plus the
two clock readings the source takes (the strftime rendering used in the
filename and the datetime rendering written in the header). -/
structure LogConfig where
  log_dir : Option (List Char)
  log_name : Option (List Char)
  stamp : List Char
  headerTime : List Char

/-- The log file path derived by setup_logging: the fixed .pyrepl
subdirectory of the log directory, the timestamp, an optional hyphen and
sanitized name, and the md extension. -/
def logPathOf (cfg : LogConfig) (d : List Char) : List Char :=
  d ++ ("/.pyrepl/").data ++ cfg.stamp ++
    (match cfg.log_name with
     | some n => '-' :: sanitize_log_name n
     | none => []) ++ (".md").data

/-- Embedding of setup_logging (src/bin/server.py lines 216-243): when no
log directory was given, logging is disabled; otherwise the directories
are created, the path is derived, and the header block (start timestamp,
the directory - labelled CWD - and the unsanitized session name when
given) is written immediately, at startup.  Returns the path and the
initial file contents.  A failing directory or file operation is caught
in the source and disables logging; the embedding models the successful
path. -/
def setup_logging (cfg : LogConfig) : Option (List Char) × List LogEntry :=
  match cfg.log_dir with
  | none => (none, [])
  | some d =>
      (some (logPathOf cfg d), [LogEntry.header cfg.headerTime d cfg.log_name])

/-- Count of header blocks in a log file. -/
def countHeaders (f : List LogEntry) : Nat :=
  (f.filter (fun e => match e with | LogEntry.header _ _ _ => true | _ => false)).length

/-- Appending a sequence of records to a log file, the only writes the
process performs after setup. -/
def appendRecords (f : List LogEntry) (recs : List LogRecord) : List LogEntry :=
  f ++ recs.map LogEntry.record

/-- Server state at the end of run_server startup (src/bin/server.py
lines 246-263): setup_logging has run, the session is freshly created,
the busy flag is clear and the log file holds exactly what setup_logging
wrote. -/
def startState (cfg : LogConfig) : ServerState :=
  { ipshell := some [], is_executing := false,
    log_file_path := (setup_logging cfg).1, log_file := (setup_logging cfg).2 }

/-
Concrete fixtures used by witnesses and counterexamples.
-/

/-- A server state after a normal startup with logging enabled: session
initialized and empty, flag clear, a log path configured. -/
def idleLogState : ServerState :=
  { ipshell := some [], is_executing := false,
    log_file_path := some (("log.md").data), log_file := [] }

/-- The same state while an admitted execution is in flight. -/
def busyState : ServerState := { idleLogState with is_executing := true }

/-- A server state before the session was initialized. -/
def uninitState : ServerState :=
  { ipshell := none, is_executing := false, log_file_path := none, log_file := [] }

/-- A well-formed request body with one code line. -/
def goodBody : Json := Json.obj [(("code").data, Json.arr [Json.str (("x = 1").data)])]

/-- A body whose code field is a list holding one integer: the validator
accepts it, the newline join then raises. -/
def badOneBody : Json := Json.obj [(("code").data, Json.arr [Json.num 1])]

/-- A body whose code field is a list of two integers. -/
def badListBody : Json := Json.obj [(("code").data, Json.arr [Json.num 1, Json.num 2])]

/-- An engine result of a successful execution printing one line. -/
def engOk : EngineResult :=
  { stdout := ("1").data ++ [Char.ofNat 10], stderr := [],
    errorBeforeExec := none, errorInExec := none }

/-- An engine result of an execution that failed during the run with
nothing captured on either stream. -/
def engBoom : EngineResult :=
  { stdout := [], stderr := [], errorBeforeExec := none,
    errorInExec := some (("boom").data) }

/-- A startup configuration with a log directory and no session name. -/
def cfgSample : LogConfig :=
  { log_dir := some (("/tmp/logs").data), log_name := none,
    stamp := ("Oct122026-120000").data, headerTime := ("2026-10-12 12:00:00").data }

/-
Helper lemmas.
-/

/-- A prefix is its own longest common prefix with any extension. -/
theorem lcp_of_isPref_left : ∀ a b : List Char, isPref a b = true → lcp a b = a := by
  intro a
  induction a with
  | nil => intro b _; cases b <;> rfl
  | cons x xs ih =>
      intro b h
      cases b with
      | nil => simp [isPref] at h
      | cons y ys =>
          simp [isPref] at h
          obtain ⟨hxy, hrest⟩ := h
          simp [lcp, hxy, ih ys hrest]

/-- The longest common prefix with one of its prefixes is that prefix. -/
theorem lcp_of_isPref_right : ∀ a b : List Char, isPref b a = true → lcp a b = b := by
  intro a
  induction a with
  | nil =>
      intro b h
      cases b with
      | nil => rfl
      | cons y ys => simp [isPref] at h
  | cons x xs ih =>
      intro b h
      cases b with
      | nil => rfl
      | cons y ys =>
          simp [isPref] at h
          obtain ⟨hxy, hrest⟩ := h
          simp [lcp, hxy.symm, ih ys hrest]

/-- Each step of the CPython margin loop computes exactly the longest
common prefix of the running margin and the next indent. -/
theorem marginStep_some (m i : List Char) : marginStep (some m) i = some (lcp m i) := by
  unfold marginStep
  by_cases h1 : isPref m i = true
  · simp [h1, lcp_of_isPref_left m i h1]
  · by_cases h2 : isPref i m = true
    · simp [h1, h2, lcp_of_isPref_right m i h2]
    · simp [h1, h2]

/-- The margin fold of the CPython loop agrees with the plain fold of the
longest-common-prefix operation. -/
theorem foldl_marginStep (inds : List (List Char)) :
    ∀ m : List Char, inds.foldl marginStep (some m) = some (inds.foldl lcp m) := by
  induction inds with
  | nil => intro m; rfl
  | cons i rest ih =>
      intro m
      simp only [List.foldl_cons, marginStep_some]
      exact ih (lcp m i)

/-- The dedent margin of the source equals the longest common leading
whitespace of the collected indents. -/
theorem pyMargin_eq_lcpAll (inds : List (List Char)) : pyMargin inds = lcpAll inds := by
  cases inds with
  | nil => rfl
  | cons i rest =>
      unfold pyMargin lcpAll
      simp only [List.foldl_cons, marginStep]
      rw [foldl_marginStep]
      rfl

/-- On any text in which the escape pattern has no match, the bounded
scan keeps every character. -/
theorem stripRun_of_noMatch :
    ∀ (fuel : Nat) (l : List Char), l.length ≤ fuel → hasMatch l = false →
      stripRun fuel l = l := by
  intro fuel
  induction fuel with
  | zero =>
      intro l hlen _
      cases l with
      | nil => rfl
      | cons c rest => simp at hlen
  | succ n ih =>
      intro l hlen hnm
      cases l with
      | nil => rfl
      | cons c rest =>
          simp only [hasMatch, Bool.or_eq_false_iff, Bool.and_eq_false_iff] at hnm
          obtain ⟨h1, h2⟩ := hnm
          simp only [List.length_cons, Nat.succ_le_succ_iff] at hlen
          by_cases hc : c = escChar
          · have hmt : matchTail rest = none := by
              rcases h1 with h1 | h1
              · simp [hc] at h1
              · exact Option.not_isSome_iff_eq_none.mp (by simp [h1])
            simp [stripRun, hc, hmt, ih rest hlen h2]
          · simp [stripRun, hc, ih rest hlen h2]

/-
Claim C9.
-/

/-- Claim C9, as frozen, is refuted: for the request code lines consisting
of a content line indented by two blanks and a line holding one blank, the
executable unit built by the handler blanks the whitespace-only line
entirely, while removal of the longest common leading whitespace would
leave its blank in place. -/
theorem c9_dedent_counterexample :
    dedentUnit [("  x").data, (" ").data] ≠
      specDeindent (joinNl [("  x").data, (" ").data]) := by decide

/-- Claim C9 (corrected): for every accepted request's list of code lines
(including single-line lists), the executable unit passed to the session
equals the lines joined with newlines, with whitespace-only lines first
normalized to empty lines and the longest common leading whitespace of
the lines with non-whitespace content removed (textwrap.dedent
semantics). -/
theorem c9_dedent_amended (lines : List (List Char)) :
    dedentUnit lines = amendedDeindent (joinNl lines) := by
  simp only [dedentUnit, textwrap_dedent, amendedDeindent, pyMargin_eq_lcpAll]

/-
Claim C6.
-/

/-- Claim C6, as frozen, is refuted: the sanitizer is not idempotent.  On
the four-character text ESC ESC A B, the first application removes the
two-character sequence ESC A, leaving ESC B - itself an escape sequence -
and the second application removes that too. -/
theorem c6_not_idempotent_counterexample :
    strip_ansi_codes (strip_ansi_codes [escChar, escChar, 'A', 'B']) ≠
        strip_ansi_codes [escChar, escChar, 'A', 'B'] ∧
      strip_ansi_codes [escChar, escChar, 'A', 'B'] = [escChar, 'B'] ∧
      strip_ansi_codes [escChar, 'B'] = [] := by
  refine ⟨by decide, by decide, by decide⟩

/-- Claim C6 (corrected): on every string in which the escape pattern has
no match the sanitizer is the identity; idempotence does not hold in
general, because deleting a match can make a stray ESC adjacent to a
following byte and form a new escape sequence. -/
theorem c6_noop_amended (s : List Char) (h : hasMatch s = false) :
    strip_ansi_codes s = s :=
  stripRun_of_noMatch s.length s (Nat.le_refl _) h

/-- Witness for c6_noop_amended at a concrete escape-free string. -/
theorem c6_noop_amended_witness :
    hasMatch (("plain text").data) = false ∧
      strip_ansi_codes (("plain text").data) = ("plain text").data :=
  ⟨by decide, c6_noop_amended (("plain text").data) (by decide)⟩

/-
Claim C7.
-/

/-- Claim C7 (confirmed): for every execution that fails during the run
(error_in_exec set, error_before_exec unset), the synthesized traceback
rendering becomes the error text exactly when both captured streams are
empty; whenever captured output exists, the recorded outcome preserves
the captured stdout and stderr and is not overwritten by the
traceback. -/
theorem c7_failure_classification (r : EngineResult) (tb : List Char)
    (hb : r.errorBeforeExec = none) (hi : r.errorInExec = some tb) :
    ((r.stdout = [] ∧ r.stderr = []) → classify r = { output := [], error := tb }) ∧
      (¬(r.stdout = [] ∧ r.stderr = []) →
        classify r = { output := r.stdout, error := r.stderr }) ∧
      (tb ≠ r.stderr → ((classify r).error = tb ↔ (r.stdout = [] ∧ r.stderr = []))) := by
  have hc : classify r =
      { output := r.stdout,
        error := if r.stdout = [] ∧ r.stderr = [] then tb else r.stderr } := by
    simp [classify, hb, hi]
  by_cases h : r.stdout = [] ∧ r.stderr = []
  · refine ⟨fun _ => ?_, fun hn => absurd h hn, fun _ => ?_⟩
    · rw [hc]
      simp [h, h.1]
    · rw [hc]
      simp [h]
  · refine ⟨fun hh => absurd hh h, fun _ => ?_, fun hne => ?_⟩
    · rw [hc]
      simp [h]
    · rw [hc]
      simp [h]
      exact fun he => hne he.symm

/-- Witness for c7_failure_classification: a run failure with empty
streams and a non-empty traceback rendering. -/
theorem c7_failure_classification_witness :
    (engBoom.stdout = [] ∧ engBoom.stderr = []) ∧
      classify engBoom = { output := [], error := ("boom").data } := by
  refine ⟨⟨rfl, rfl⟩, ?_⟩
  exact (c7_failure_classification engBoom (("boom").data) rfl rfl).1 ⟨rfl, rfl⟩

/-
Claim C10.
-/

/-- Claim C10 (confirmed): when the session is uninitialized, every POST
to the execute endpoint - whatever the body, malformed ones included -
is answered 500 with the not-initialized error before the body is read or
validated, no worker is spawned, and the state (busy flag, transcript)
is unchanged. -/
theorem c10_uninitialized_500 (st : ServerState) (body : Option Json)
    (h : st.ipshell = none) :
    execute_code st body =
      { state := st, trace := [Event.respond 500 (RespBody.errorMsg notInitMsg)],
        spawned := none, crashed := false } := by
  simp [execute_code, h]

/-- Witness for c10_uninitialized_500 at the uninitialized state with a
malformed (unparseable) body. -/
theorem c10_uninitialized_500_witness :
    execute_code uninitState none =
      { state := uninitState,
        trace := [Event.respond 500 (RespBody.errorMsg notInitMsg)],
        spawned := none, crashed := false } :=
  c10_uninitialized_500 uninitState none rfl

/-
Claim C3.
-/

/-- Claim C3 is contradicted by the validator (code bug): a body whose
code field is a list of integers is accepted with no error - though the
validator's own exception text says the field must be a list of strings -
and a body with no code field at all is accepted as an empty list instead
of being rejected with 400. -/
theorem c3_validator_gap :
    validate_code_exc_data (some badListBody) = ([Json.num 1, Json.num 2], none) ∧
      validate_code_exc_data (some (Json.obj [])) = ([], none) :=
  ⟨rfl, rfl⟩

/-
Claim C1.
-/

/-- Claim C1, as frozen, is refuted: in a busy state a request with an
unparseable body is answered 400, not 409, so not every request arriving
while the flag is set receives the busy response.  The state is still
left unchanged. -/
theorem c1_busy_malformed_counterexample :
    busyState.is_executing = true ∧
      (execute_code busyState none).trace =
        [Event.respond 400 (RespBody.errorMsg (parseFailHead ++ jsonDecodeDetail))] ∧
      (execute_code busyState none).state = busyState :=
  ⟨rfl, rfl, rfl⟩

/-- Claim C1 (corrected): in every state with the busy flag set, any POST
to the execute endpoint that passes the initialization check and body
validation is answered 409 with the busy error, all state (session, flag,
transcript) is left unchanged, no worker is spawned and no log record is
appended; the flag test is one atomic step of the transition (performed
under the mutex in the source).  Requests failing validation are answered
400 even while busy. -/
theorem c1_busy_conflict_amended (st : ServerState) (body : Option Json)
    (h1 : st.ipshell.isSome = true) (h2 : (validate_code_exc_data body).2 = none)
    (h3 : st.is_executing = true) :
    execute_code st body =
      { state := st, trace := [Event.respond 409 (RespBody.errorMsg busyMsg)],
        spawned := none, crashed := false } := by
  obtain ⟨s, hs⟩ := Option.isSome_iff_exists.mp h1
  cases hv : validate_code_exc_data body with
  | mk code err =>
      rw [hv] at h2
      simp only at h2
      subst h2
      simp [execute_code, hs, hv, h3]

/-- Witness for c1_busy_conflict_amended: a well-formed request in the
busy state. -/
theorem c1_busy_conflict_witness :
    execute_code busyState (some goodBody) =
      { state := busyState, trace := [Event.respond 409 (RespBody.errorMsg busyMsg)],
        spawned := none, crashed := false } :=
  c1_busy_conflict_amended busyState (some goodBody) rfl rfl rfl

/-
Claim C5.
-/

/-- Claim C5 (confirmed): for every POST to the reset endpoint issued
while the session is initialized (and with logging configured, so a
transcript exists), the response is 200 with status ok, the session is
discarded and recreated - so the next accepted execution observes a
session with none of the pre-reset bindings - the busy flag is forced to
idle whatever its value (no in-flight check is made), and the synthetic
reset record is appended to the transcript. -/
theorem c5_reset_behavior (st : ServerState) (s : Session) (p : List Char)
    (h1 : st.ipshell = some s) (h2 : st.log_file_path = some p) :
    reset_scope st =
      ({ st with
          ipshell := some [], is_executing := false,
          log_file := st.log_file ++ [LogEntry.record resetRecord] },
        [Event.resetSession, Event.consoleNote resetMsg,
          Event.respond 200 (RespBody.statusMsg okMsg), Event.logAppend resetRecord]) := by
  simp [reset_scope, h1, write_to_log, h2, resetRecord]

/-- Witness for c5_reset_behavior in the busy state: the flag is forced
back to idle although an execution is in flight. -/
theorem c5_reset_behavior_witness :
    busyState.is_executing = true ∧
      reset_scope busyState =
        ({ busyState with
            ipshell := some [], is_executing := false,
            log_file := busyState.log_file ++ [LogEntry.record resetRecord] },
          [Event.resetSession, Event.consoleNote resetMsg,
            Event.respond 200 (RespBody.statusMsg okMsg), Event.logAppend resetRecord]) :=
  ⟨rfl, c5_reset_behavior busyState [] (("log.md").data) rfl rfl⟩

/-
Claim C4.
-/

/-- Claim C4 (confirmed): for every accepted execute request - session
initialized, body validated, flag clear - the trace of the whole request
is exactly the flag transition followed by the 200 accepted response,
followed by everything else: every side effect of the submitted code (the
console echo of the code, the engine invocation, the echoes of its
output, the transcript append) occurs strictly after the response was
sent.  The worker runs on a detached thread started after the response,
so this sequential trace is the program-order linearization. -/
theorem c4_response_precedes_effects (st : ServerState) (body : Option Json)
    (b : WorkerBehavior) (h1 : st.ipshell.isSome = true)
    (h2 : (validate_code_exc_data body).2 = none) (h3 : st.is_executing = false) :
    ∃ tail, (processExecute st body b).2 =
      Event.setFlag :: Event.respond 200 (RespBody.statusMsg msgAccepted) :: tail := by
  obtain ⟨s, hs⟩ := Option.isSome_iff_exists.mp h1
  cases hv : validate_code_exc_data body with
  | mk code err =>
      rw [hv] at h2
      simp only at h2
      subst h2
      cases has : asStrings code with
      | none =>
          refine ⟨[], ?_⟩
          simp [processExecute, execute_code, hs, hv, h3, has]
      | some lines =>
          refine ⟨(run_code_in_background { st with is_executing := true } lines
            (dedentUnit lines) b).trace, ?_⟩
          simp [processExecute, execute_code, hs, hv, h3, has]

/-- Witness for c4_response_precedes_effects: an accepted request in the
idle state with a normally returning engine. -/
theorem c4_response_precedes_effects_witness :
    ∃ tail, (processExecute idleLogState (some goodBody) (WorkerBehavior.normal engOk)).2 =
      Event.setFlag :: Event.respond 200 (RespBody.statusMsg msgAccepted) :: tail :=
  c4_response_precedes_effects idleLogState (some goodBody) (WorkerBehavior.normal engOk)
    rfl rfl rfl

/-
Claim C2.
-/

/-- A transcript write never touches the busy flag. -/
theorem write_to_log_is_executing (st : ServerState) (lines : List (List Char))
    (res : ExecOutcome) : (write_to_log st lines res).1.is_executing = st.is_executing := by
  unfold write_to_log
  cases h : st.log_file_path <;> simp

/-- The echo events of the normal path contain no transcript append. -/
theorem echoEvents_no_log (out err : List Char) :
    (echoEvents out err).all (fun e => !(isLogAppendB e)) = true := by
  unfold echoEvents
  split <;> split <;> rfl

/-- The worker tail clears the flag, and its trace is the try-block
events, then the flag clear, then the log write: when the try-block
events contain no append, no append precedes the clear. -/
theorem workerFinish_spec (st : ServerState) (lines : List (List Char))
    (sess : Option Session) (res : ExecOutcome) (tryEvents : List Event)
    (h : tryEvents.all (fun e => !(isLogAppendB e)) = true) :
    (workerFinish st lines sess res tryEvents).state.is_executing = false ∧
      ∃ pre post,
        (workerFinish st lines sess res tryEvents).trace = pre ++ Event.clearFlag :: post ∧
          pre.all (fun e => !(isLogAppendB e)) = true := by
  constructor
  · simp only [workerFinish]
    rw [write_to_log_is_executing]
  · refine ⟨Event.echoCode lines :: tryEvents, _, rfl, ?_⟩
    simp only [List.all_cons, h, Bool.and_true]
    rfl

/-- Every exit path of the worker clears the busy flag, and no transcript
append precedes the clear. -/
theorem run_worker_releases (st : ServerState) (lines : List (List Char))
    (unit : List Char) (b : WorkerBehavior) :
    (run_code_in_background st lines unit b).state.is_executing = false ∧
      ∃ pre post,
        (run_code_in_background st lines unit b).trace = pre ++ Event.clearFlag :: post ∧
          pre.all (fun e => !(isLogAppendB e)) = true := by
  cases b with
  | normal r =>
      apply workerFinish_spec
      simp only [List.all_cons, echoEvents_no_log, Bool.and_true]
      rfl
  | runRaises tb =>
      apply workerFinish_spec
      rfl
  | lateRaises r tb =>
      apply workerFinish_spec
      by_cases h : r.stdout = [] <;> simp [isLogAppendB, h]

/-- Claim C2, as frozen, is refuted: for an admitted request whose code
list holds an integer (which validation admits), the handler sets the
flag and sends the 200 acceptance, then the newline join raises an
unhandled TypeError before the worker is spawned; no clear event exists
anywhere in the processing and the flag stays set. -/
theorem c2_flag_leak_counterexample :
    (execute_code idleLogState (some badOneBody)).state.is_executing = true ∧
      (execute_code idleLogState (some badOneBody)).crashed = true ∧
      (execute_code idleLogState (some badOneBody)).spawned = none ∧
      Event.respond 200 (RespBody.statusMsg msgAccepted) ∈
        (execute_code idleLogState (some badOneBody)).trace ∧
      Event.clearFlag ∉ (execute_code idleLogState (some badOneBody)).trace := by
  refine ⟨rfl, rfl, rfl, ?_, ?_⟩ <;> decide

/-- Claim C2 (corrected): for every admitted request whose code lines are
all strings - so that the newline join succeeds and the worker is spawned
- the busy flag is cleared on every exit path of the worker (success,
engine failure, or any internal exception inside the worker) and the
clearing happens before the transcript append is attempted.  When a code
line is not a string, the join raises after the 200 was sent and before
the worker starts, and nothing ever clears the flag. -/
theorem c2_gate_release_amended (st : ServerState) (body : Option Json)
    (b : WorkerBehavior) (lines : List (List Char))
    (h1 : st.ipshell.isSome = true) (h2 : (validate_code_exc_data body).2 = none)
    (h3 : st.is_executing = false)
    (h4 : asStrings (validate_code_exc_data body).1 = some lines) :
    (processExecute st body b).1.is_executing = false ∧
      ∃ pre post,
        (processExecute st body b).2 = pre ++ Event.clearFlag :: post ∧
          pre.all (fun e => !(isLogAppendB e)) = true := by
  obtain ⟨s, hs⟩ := Option.isSome_iff_exists.mp h1
  cases hv : validate_code_exc_data body with
  | mk code err =>
      rw [hv] at h2 h4
      simp only at h2 h4
      subst h2
      have hred : processExecute st body b =
          ((run_code_in_background { st with is_executing := true } lines
              (dedentUnit lines) b).state,
            Event.setFlag :: Event.respond 200 (RespBody.statusMsg msgAccepted) ::
              (run_code_in_background { st with is_executing := true } lines
                (dedentUnit lines) b).trace) := by
        simp [processExecute, execute_code, hs, hv, h3, h4]
      obtain ⟨hflag, pre, post, htr, hpre⟩ :=
        run_worker_releases { st with is_executing := true } lines (dedentUnit lines) b
      rw [hred]
      refine ⟨hflag,
        Event.setFlag :: Event.respond 200 (RespBody.statusMsg msgAccepted) :: pre,
        post, ?_, ?_⟩
      · simp [htr]
      · simp only [List.all_cons, hpre, Bool.and_true]
        rfl

/-- Witness for c2_gate_release_amended: an admitted all-string request
whose engine raises during the run. -/
theorem c2_gate_release_witness :
    (processExecute idleLogState (some goodBody)
        (WorkerBehavior.runRaises (("Traceback").data))).1.is_executing = false ∧
      ∃ pre post,
        (processExecute idleLogState (some goodBody)
            (WorkerBehavior.runRaises (("Traceback").data))).2 =
          pre ++ Event.clearFlag :: post ∧
          pre.all (fun e => !(isLogAppendB e)) = true :=
  c2_gate_release_amended idleLogState (some goodBody)
    (WorkerBehavior.runRaises (("Traceback").data)) [("x = 1").data] rfl rfl rfl rfl

/-
Claim C8.
-/

/-- Appended records contribute no header blocks. -/
theorem countHeaders_records (recs : List LogRecord) :
    countHeaders (recs.map LogEntry.record) = 0 := by
  induction recs with
  | nil => rfl
  | cons r rest ih =>
      simp only [List.map_cons, countHeaders, List.filter] at ih ⊢
      exact ih

/-- Claim C8, as frozen, is refuted: setup_logging runs at startup, and
already at that point - before any append has been attempted - the log
file exists and holds the header block, so the file is not created and
the header is not written at the time of the first append. -/
theorem c8_eager_header_counterexample :
    (setup_logging cfgSample).2 =
        [LogEntry.header (("2026-10-12 12:00:00").data) (("/tmp/logs").data) none] ∧
      (setup_logging cfgSample).2 ≠ [] :=
  ⟨rfl, by decide⟩

/-- Claim C8 (corrected): the transcript logger initializes eagerly at
startup, not lazily on first write: when a log directory is configured,
setup_logging derives the file path (timestamp plus the optional
sanitized session name, under the fixed .pyrepl subdirectory of the log
directory) and writes the single per-process header block immediately,
before any append; whatever records are appended afterwards, the file
holds exactly one header block, and it precedes all records. -/
theorem c8_logging_amended (cfg : LogConfig) (d : List Char) (recs : List LogRecord)
    (h : cfg.log_dir = some d) :
    (setup_logging cfg).1 = some (logPathOf cfg d) ∧
      (setup_logging cfg).2 = [LogEntry.header cfg.headerTime d cfg.log_name] ∧
      appendRecords (setup_logging cfg).2 recs =
        LogEntry.header cfg.headerTime d cfg.log_name :: recs.map LogEntry.record ∧
      countHeaders (appendRecords (setup_logging cfg).2 recs) = 1 := by
  refine ⟨by simp [setup_logging, h], by simp [setup_logging, h], ?_, ?_⟩
  · simp [setup_logging, h, appendRecords]
  · simp only [setup_logging, h, appendRecords, List.singleton_append, countHeaders,
      List.filter]
    have := countHeaders_records recs
    simp only [countHeaders] at this
    simp [this]

/-- Witness for c8_logging_amended at a concrete configuration with one
appended record. -/
theorem c8_logging_amended_witness :
    (setup_logging cfgSample).1 = some (logPathOf cfgSample (("/tmp/logs").data)) ∧
      (setup_logging cfgSample).2 =
        [LogEntry.header cfgSample.headerTime (("/tmp/logs").data) cfgSample.log_name] ∧
      appendRecords (setup_logging cfgSample).2 [resetRecord] =
        LogEntry.header cfgSample.headerTime (("/tmp/logs").data) cfgSample.log_name ::
          [resetRecord].map LogEntry.record ∧
      countHeaders (appendRecords (setup_logging cfgSample).2 [resetRecord]) = 1 :=
  c8_logging_amended cfgSample (("/tmp/logs").data) [resetRecord] rfl
